import Mathlib

/-!
# Verification of the wyoming-gemini-live gateway

Shallow embedding, in Lean 4, of the core of the `wyoming-gemini-live`
repository: the audio codec (`audio.py`), the Home Assistant client and
entity filter (`ha.py`), the Gemini Live session controller (`gemini.py`)
and the Wyoming edge adapter (`wyoming_handler.py`).

External library behaviour (HTTP responses, `json.loads`, `fnmatch`,
`scipy.signal.resample_poly` filter taps) is represented by explicit
parameters or faithful ports, as noted at each definition.
-/

set_option maxRecDepth 4000

/-! ## Python-style JSON values and dict semantics

Tool-call arguments, service-call payloads and HTTP JSON bodies are Python
objects.  We model them with a small JSON-like type.  Numbers are modelled
as integers: no claim below depends on float payload values.
-/

inductive JVal where
  | str (s : String)
  | num (n : Int)
  | bool (b : Bool)
  | null
  | arr (xs : List JVal)
  | obj (kvs : List (String × JVal))

mutual

def JVal.deq : (a b : JVal) → Decidable (a = b)
  | .str s, .str t =>
    match decEq s t with
    | isTrue h => isTrue (by rw [h])
    | isFalse h => isFalse (fun hc => by cases hc; exact h rfl)
  | .num m, .num n =>
    match decEq m n with
    | isTrue h => isTrue (by rw [h])
    | isFalse h => isFalse (fun hc => by cases hc; exact h rfl)
  | .bool x, .bool y =>
    match decEq x y with
    | isTrue h => isTrue (by rw [h])
    | isFalse h => isFalse (fun hc => by cases hc; exact h rfl)
  | .null, .null => isTrue rfl
  | .arr xs, .arr ys =>
    match JVal.deqList xs ys with
    | isTrue h => isTrue (by rw [h])
    | isFalse h => isFalse (fun hc => by cases hc; exact h rfl)
  | .obj xs, .obj ys =>
    match JVal.deqPairs xs ys with
    | isTrue h => isTrue (by rw [h])
    | isFalse h => isFalse (fun hc => by cases hc; exact h rfl)
  | .str _, .num _ => isFalse (fun h => JVal.noConfusion h)
  | .str _, .bool _ => isFalse (fun h => JVal.noConfusion h)
  | .str _, .null => isFalse (fun h => JVal.noConfusion h)
  | .str _, .arr _ => isFalse (fun h => JVal.noConfusion h)
  | .str _, .obj _ => isFalse (fun h => JVal.noConfusion h)
  | .num _, .str _ => isFalse (fun h => JVal.noConfusion h)
  | .num _, .bool _ => isFalse (fun h => JVal.noConfusion h)
  | .num _, .null => isFalse (fun h => JVal.noConfusion h)
  | .num _, .arr _ => isFalse (fun h => JVal.noConfusion h)
  | .num _, .obj _ => isFalse (fun h => JVal.noConfusion h)
  | .bool _, .str _ => isFalse (fun h => JVal.noConfusion h)
  | .bool _, .num _ => isFalse (fun h => JVal.noConfusion h)
  | .bool _, .null => isFalse (fun h => JVal.noConfusion h)
  | .bool _, .arr _ => isFalse (fun h => JVal.noConfusion h)
  | .bool _, .obj _ => isFalse (fun h => JVal.noConfusion h)
  | .null, .str _ => isFalse (fun h => JVal.noConfusion h)
  | .null, .num _ => isFalse (fun h => JVal.noConfusion h)
  | .null, .bool _ => isFalse (fun h => JVal.noConfusion h)
  | .null, .arr _ => isFalse (fun h => JVal.noConfusion h)
  | .null, .obj _ => isFalse (fun h => JVal.noConfusion h)
  | .arr _, .str _ => isFalse (fun h => JVal.noConfusion h)
  | .arr _, .num _ => isFalse (fun h => JVal.noConfusion h)
  | .arr _, .bool _ => isFalse (fun h => JVal.noConfusion h)
  | .arr _, .null => isFalse (fun h => JVal.noConfusion h)
  | .arr _, .obj _ => isFalse (fun h => JVal.noConfusion h)
  | .obj _, .str _ => isFalse (fun h => JVal.noConfusion h)
  | .obj _, .num _ => isFalse (fun h => JVal.noConfusion h)
  | .obj _, .bool _ => isFalse (fun h => JVal.noConfusion h)
  | .obj _, .null => isFalse (fun h => JVal.noConfusion h)
  | .obj _, .arr _ => isFalse (fun h => JVal.noConfusion h)

def JVal.deqList : (as bs : List JVal) → Decidable (as = bs)
  | [], [] => isTrue rfl
  | [], _ :: _ => isFalse (fun h => List.noConfusion h)
  | _ :: _, [] => isFalse (fun h => List.noConfusion h)
  | a :: as, b :: bs =>
    match JVal.deq a b, JVal.deqList as bs with
    | isTrue h1, isTrue h2 => isTrue (by rw [h1, h2])
    | isFalse h1, _ => isFalse (fun h => by cases h; exact h1 rfl)
    | isTrue _, isFalse h2 => isFalse (fun h => by cases h; exact h2 rfl)

def JVal.deqPairs : (as bs : List (String × JVal)) → Decidable (as = bs)
  | [], [] => isTrue rfl
  | [], _ :: _ => isFalse (fun h => List.noConfusion h)
  | _ :: _, [] => isFalse (fun h => List.noConfusion h)
  | (k, a) :: as, (l, b) :: bs =>
    match decEq k l, JVal.deq a b, JVal.deqPairs as bs with
    | isTrue hk, isTrue h1, isTrue h2 => isTrue (by rw [hk, h1, h2])
    | isFalse hk, _, _ => isFalse (fun h => by cases h; exact hk rfl)
    | isTrue _, isFalse h1, _ => isFalse (fun h => by cases h; exact h1 rfl)
    | isTrue _, isTrue _, isFalse h2 => isFalse (fun h => by cases h; exact h2 rfl)

end

instance : DecidableEq JVal := JVal.deq

/-- Python truthiness of a value (`bool(v)`), used by `x or y` idioms. -/
def jTruthy : JVal → Bool
  | .str s => ¬ s.isEmpty
  | .num n => n ≠ 0
  | .bool b => b
  | .null => false
  | .arr xs => ¬ xs.isEmpty
  | .obj kvs => ¬ kvs.isEmpty

/-- Python `str(v)` for the values above.  Only `str` payloads are exercised
by the specification; representations of compound values are schematic. -/
def pyStr : JVal → String
  | .str s => s
  | .num n => toString n
  | .bool true => "True"
  | .bool false => "False"
  | .null => "None"
  | .arr _ => "[...]"
  | .obj _ => "\x7b...\x7d"

/-- `d.get(k)` on a Python dict modelled as an insertion-ordered assoc list. -/
def dictGet (d : List (String × JVal)) (k : String) : Option JVal :=
  match d with
  | [] => none
  | kv :: rest => if kv.1 = k then some kv.2 else dictGet rest k

/-- `d.get(k, default)`. -/
def dictGetD (d : List (String × JVal)) (k : String) (default : JVal) : JVal :=
  (dictGet d k).getD default

/-- `d[k] = v`: update in place if the key exists, else append. -/
def dictSet (d : List (String × JVal)) (k : String) (v : JVal) : List (String × JVal) :=
  if d.any (fun kv => kv.1 = k) then
    d.map (fun kv => if kv.1 = k then (k, v) else kv)
  else
    d ++ [(k, v)]

/-- `d.update(extra)`: apply `dictSet` for each pair of `extra` in order. -/
def dictUpdate (d extra : List (String × JVal)) : List (String × JVal) :=
  extra.foldl (fun acc kv => dictSet acc kv.1 kv.2) d

/-- Whether the dict has the key. -/
def dictHasKey (d : List (String × JVal)) (k : String) : Bool :=
  d.any (fun kv => kv.1 = k)

/-! ## String helpers -/

/-- Does `pat` occur at the head of `hay`? -/
def charsMatchAt : List Char → List Char → Bool
  | [], _ => true
  | _ :: _, [] => false
  | p :: ps, c :: cs => p = c && charsMatchAt ps cs

/-- Substring containment on character lists (Python `needle in hay`). -/
def charsContain (pat : List Char) : List Char → Bool
  | [] => charsMatchAt pat []
  | c :: cs => charsMatchAt pat (c :: cs) || charsContain pat cs

/-- Python `needle in hay` on strings. -/
def strContains (hay needle : String) : Bool :=
  charsContain needle.toList hay.toList

/-- Python `s.rstrip("/")`: drop trailing slashes. -/
def rstripSlash (s : String) : String :=
  ((s.toList.reverse.dropWhile (fun c => c = '/')).reverse).asString

/-- Python `s.strip()`: drop leading and trailing whitespace.  (Python
strips all Unicode whitespace; the ASCII whitespace of `Char.isWhitespace`
covers every payload in this development.) -/
def pyStrip (s : String) : String :=
  ((((s.toList.dropWhile Char.isWhitespace).reverse).dropWhile Char.isWhitespace).reverse).asString

/-- Python `s[:n]`. -/
def pyTake (s : String) (n : Nat) : String :=
  (s.toList.take n).asString

/-! ## Audio codec (`audio.py`)

`resample_pcm16` delegates the numeric work to `scipy.signal.resample_poly`.
scipy is not part of this repository, so the polyphase resampler is ported
here from its reference semantics: `upfirdn` filtering with a zero-padded
FIR filter, sliced so that exactly `ceil(n_in * up / down)` output samples
remain.  The FIR tap values come from a Kaiser-windowed `firwin` design in
floating point; they are abstracted as a parameter `taps` because every
property below (output length, and the image of the all-zero signal) is
independent of the tap values.  Samples are modelled as exact rationals;
floating-point rounding is not modelled (the claims below only concern the
zero signal, on which the arithmetic is exact).
-/

/-- `scipy.signal._upfirdn._output_len`: number of samples produced by
`upfirdn` with a length-`len_h` filter on `n_in` input samples. -/
def output_len (len_h n_in up down : Nat) : Nat :=
  (((n_in - 1) * up + len_h) - 1) / down + 1

/-- Filter tap at integer index `i`; zero outside the filter support. -/
def tapAt (h : List ℚ) (i : Int) : ℚ :=
  if hi : 0 ≤ i ∧ i.toNat < h.length then h.get ⟨i.toNat, hi.2⟩ else 0

/-- One output sample of `upfirdn`:
`y[t] = Σ_m x[m] · h[t·down − m·up]` (zero-padded input boundary,
scipy mode `'constant'` with `cval=0`, the default used by `resample_poly`). -/
def upfirdnSample (h x : List ℚ) (up down t : Nat) : ℚ :=
  (List.range x.length).foldl
    (fun acc m => acc + x.getD m 0 * tapAt h ((t * down : Int) - (m * up : Int))) 0

/-- `scipy.signal.upfirdn h x up down`. -/
def upfirdn (h x : List ℚ) (up down : Nat) : List ℚ :=
  (List.range (output_len h.length x.length up down)).map (upfirdnSample h x up down)

/-- `scipy.signal.resample_poly x up down` (default Kaiser window, default
`padtype='constant'`), with tap values abstracted as `taps`.  The filter
length `2 * half_len + 1` with `half_len = 10 * max(up, down)`, the
pre-padding, the removal offset and the output count are scipy's own
arithmetic; `n_post_pad` is the closed form of scipy's padding loop, which
increments the padding until
`output_len(len h + pads) ≥ n_out + n_pre_remove`. -/
def resample_poly (taps : Nat → ℚ) (x : List ℚ) (up down : Nat) : List ℚ :=
  let n_in := x.length
  let n_out := n_in * up / down + (if n_in * up % down ≠ 0 then 1 else 0)
  let max_rate := max up down
  let half_len := 10 * max_rate
  let h0 : List ℚ := (List.range (2 * half_len + 1)).map (fun i => taps i * up)
  let n_pre_pad := down - half_len % down
  let n_pre_remove := (half_len + n_pre_pad) / down
  let n_post_pad :=
    (down * (n_out + n_pre_remove - 1) + 1) - (n_in - 1) * up - (h0.length + n_pre_pad)
  let h := List.replicate n_pre_pad 0 ++ h0 ++ List.replicate n_post_pad 0
  let y := upfirdn h x up down
  (y.drop n_pre_remove).take n_out

/-- `np.clip(v, -32768, 32767)`. -/
def clipPCM16 (q : ℚ) : ℚ := max (-32768) (min q 32767)

/-- `np.float_ -> np.int16` conversion after clipping: truncation toward
zero (`astype(np.int16)` on in-range values). -/
def ratTruncToInt (q : ℚ) : Int := Int.tdiv q.num q.den

/-- `audio.resample_pcm16`, at the granularity of PCM16 samples (the byte
buffer of `2·n` bytes is its list of `n` signed 16-bit samples). -/
def resample_pcm16 (taps : Nat → ℚ) (pcm : List Int) (src_rate_hz dst_rate_hz : Nat) :
    List Int :=
  if src_rate_hz = dst_rate_hz then pcm
  else if pcm = [] then []
  else
    let g := Nat.gcd src_rate_hz dst_rate_hz
    let up := dst_rate_hz / g
    let down := src_rate_hz / g
    let x : List ℚ := pcm.map (Int.cast : Int → ℚ)
    let y := resample_poly taps x up down
    y.map (fun q => ratTruncToInt (clipPCM16 q))

/-- Ceiling division on naturals, `⌈a / b⌉`. -/
def ceilDivNat (a b : Nat) : Nat := (a + b - 1) / b

/-! ## Home Assistant client and entity filter (`ha.py`)

`fnmatch.fnmatch` is Python standard-library code, not part of this
repository; pattern matching is therefore a parameter `fnm value pat`
throughout (the entity-filter invariants hold for every matcher).
HTTP traffic is represented by explicit response values; each operation
also returns the list of requests it issued.
-/

structure EntityView where
  entity_id : String
  name : String
  state : String
  domain : String
deriving DecidableEq

/-- `ha._domain`: the prefix of `entity_id` before the first `.`, or `""`
when there is no dot. -/
def entityDomain (entity_id : String) : String :=
  if strContains entity_id "." then (entity_id.toList.takeWhile (fun c => c ≠ '.')).asString
  else ""

/-- `ha._matches_any(patterns, value)` with the matcher abstracted. -/
def matches_any (fnm : String → String → Bool) (patterns : List String) (value : String) :
    Bool :=
  patterns.any (fun pat => fnm value pat)

/-- A raw state object (`/api/states` element): a Python dict.
A truthy non-dict `attributes` value would make the Python code raise
(`.get` on a non-mapping); the model reads attributes only out of dicts,
which is the only case that produces any `EntityView`. -/
def stateAttrs (s : List (String × JVal)) : List (String × JVal) :=
  match dictGetD s "attributes" .null with
  | .obj kvs => kvs
  | _ => []

/-- The `EntityView` appended for one surviving state object:
`name = attributes.friendly_name or entity_id`, `state = s.get("state",
"unknown")`. -/
def mkEntityView (s : List (String × JVal)) (entity_id dom : String) : EntityView :=
  let fn := dictGetD (stateAttrs s) "friendly_name" .null
  let name := if jTruthy fn then pyStr fn else entity_id
  let state := pyStr (dictGetD s "state" (.str "unknown"))
  ⟨entity_id, name, state, dom⟩

/-- Loop body of `ha.filter_entities`, with the accumulator explicit. -/
def filter_entities_go (fnm : String → String → Bool)
    (allowed_domains allowlist blocklist : List String) (max_entities : Int) :
    List (List (String × JVal)) → List EntityView → List EntityView
  | [], out => out
  | s :: rest, out =>
    let entity_id := pyStrip (pyStr (dictGetD s "entity_id" (.str "")))
    if entity_id = "" then
      filter_entities_go fnm allowed_domains allowlist blocklist max_entities rest out
    else
      let dom := entityDomain entity_id
      if allowed_domains ≠ [] ∧ ¬ allowed_domains.contains dom then
        filter_entities_go fnm allowed_domains allowlist blocklist max_entities rest out
      else if allowlist ≠ [] ∧ ¬ matches_any fnm allowlist entity_id then
        filter_entities_go fnm allowed_domains allowlist blocklist max_entities rest out
      else if blocklist ≠ [] ∧ matches_any fnm blocklist entity_id then
        filter_entities_go fnm allowed_domains allowlist blocklist max_entities rest out
      else
        let out' := out ++ [mkEntityView s entity_id dom]
        if (out'.length : Int) ≥ max_entities then out'
        else filter_entities_go fnm allowed_domains allowlist blocklist max_entities rest out'

/-- `ha.filter_entities` (`max_entities` is a Python `int`, hence `Int`). -/
def filter_entities (fnm : String → String → Bool) (states : List (List (String × JVal)))
    (allowed_domains allowlist blocklist : List String) (max_entities : Int) :
    List EntityView :=
  filter_entities_go fnm allowed_domains allowlist blocklist max_entities states []

/-- An HTTP response as seen by `aiohttp`: status, text body, and the JSON
decoding of the body (`none` when `.json()` would raise). -/
structure HttpResp where
  status : Nat
  body : String
  json : Option JVal

/-- `HomeAssistantClient.__init__` stores `base_url.rstrip("/")` and
`token.strip()`. -/
structure HAClient where
  base_url : String
  token : String

def HAClient.make (base_url token : String) : HAClient :=
  ⟨rstripSlash base_url, pyStrip token⟩

/-- `HomeAssistantClient.is_configured`. -/
def HAClient.is_configured (c : HAClient) : Bool :=
  ¬ c.base_url.isEmpty && ¬ c.token.isEmpty

/-- A POST request issued by `call_service`: url and JSON payload. -/
structure PostReq where
  url : String
  payload : List (String × JVal)
deriving DecidableEq

/-- `HomeAssistantClient.call_service`, with the network abstracted as a
function from requests to responses.  Returns the `(ok, message)` pair and
the list of HTTP requests that were issued. -/
def call_service (c : HAClient) (http : PostReq → HttpResp)
    (domain service : String) (data : Option (List (String × JVal))) :
    (Bool × String) × List PostReq :=
  if ¬ c.is_configured then
    ((false, "Home Assistant token/URL not configured"), [])
  else
    let domain := pyStrip domain
    let service := pyStrip service
    if domain = "" ∨ service = "" then
      ((false, "domain/service missing"), [])
    else
      let url := c.base_url ++ "/api/services/" ++ domain ++ "/" ++ service
      let payload := data.getD []
      let req : PostReq := ⟨url, payload⟩
      let resp := http req
      if resp.status = 200 then ((true, "ok"), [req])
      else ((false, "HTTP " ++ toString resp.status ++ ": " ++ pyTake resp.body 500), [req])

/-- `dict(x)` on a JSON value: succeeds exactly on objects (list-of-pairs
inputs, which Python would also accept, do not occur in JSON bodies). -/
def dictOf : JVal → Except String (List (String × JVal))
  | .obj kvs => .ok kvs
  | _ => .error "TypeError: cannot convert to dict"

/-- `HomeAssistantClient.get_states`, with the GET response explicit.
`Except.error` models a raised exception. -/
def get_states (resp : HttpResp) : Except String (List (List (String × JVal))) :=
  if resp.status ≠ 200 then
    if resp.status = 401 then .ok []
    else .error ("HA /api/states failed: " ++ toString resp.status ++ " " ++ resp.body)
  else
    match resp.json with
    | none => .error "aiohttp: response body is not JSON"
    | some data =>
      match data with
      | .arr xs => xs.mapM dictOf
      | _ => .error "HA /api/states returned non-list JSON"

/-! ## Session controller (`gemini.py`)

The controller is driven by the stream of messages the Gemini session
yields, interleaved with the two external flag writes that the Wyoming
handler can perform between awaits (`notify_barge_in`, and the clearing of
`barge_in` inside `enqueue_audio`).  One edge connection is modelled as a
list of turns; each turn carries the interleaved items observed while
iterating `session.receive()` and the way the iterator ended.

`json.loads` and the Home Assistant service-call outcome are external, so
the environment carries them as functions, together with the audio rates
from `Settings` and the abstract resampler taps.
-/

structure SessEnv where
  output_sample_rate_hz : Nat
  gemini_output_sample_rate_hz : Nat
  taps : Nat → ℚ
  parseJson : String → Option JVal
  callService : String → String → List (String × JVal) → Bool × String

/-- A `types.FunctionCall` as read by `_handle_tool_calls` via `getattr`:
every field may be absent (`None`). `args` is `.null` when absent. -/
structure FunctionCall where
  id : Option String
  name : Option String
  args : JVal
deriving DecidableEq

/-- A `types.FunctionResponse` with its JSON response payload. -/
structure FunctionResponse where
  id : Option String
  name : String
  response : JVal
deriving DecidableEq

/-- The service call that `_execute_control_home_assistant` hands to
`HomeAssistantClient.call_service`. -/
structure ServiceCall where
  domain : String
  service : String
  data : List (String × JVal)
deriving DecidableEq

/-- `str(fc_name or "unknown")`: `None` and `""` are falsy. -/
def nameOrUnknown : Option String → String
  | none => "unknown"
  | some s => if s.isEmpty then "unknown" else s

/-- The `data` dict built by `_execute_control_home_assistant`:
`entity_id` when non-empty, then the parsed `service_data_json` merged in
when it is a string, non-empty after strip, and parses to a mapping. -/
def buildServiceData (parseJson : String → Option JVal)
    (entity_id : String) (service_data_json : Option JVal) : List (String × JVal) :=
  let data : List (String × JVal) :=
    if entity_id ≠ "" then [("entity_id", .str entity_id)] else []
  match service_data_json with
  | some (.str s) =>
    if pyStrip s ≠ "" then
      match parseJson s with
      | some (.obj extra) => dictUpdate data extra
      | some _ => data
      | none => data
    else data
  | _ => data

/-- `_execute_control_home_assistant`.  Returns the `(ok, message)` pair
and the service calls issued (empty when the args are not a mapping). -/
def executeControlHA (env : SessEnv) (args : JVal) : (Bool × String) × List ServiceCall :=
  match args with
  | .obj kvs =>
    let domain := pyStrip (pyStr (dictGetD kvs "domain" (.str "")))
    let service := pyStrip (pyStr (dictGetD kvs "service" (.str "")))
    let entity_id := pyStrip (pyStr (dictGetD kvs "entity_id" (.str "")))
    let service_data_json := dictGet kvs "service_data_json"
    let data := buildServiceData env.parseJson entity_id service_data_json
    let okMsg := env.callService domain service data
    (okMsg, [⟨domain, service, data⟩])
  | _ => ((false, "Invalid tool args (expected object)"), [])

/-- The response built for one function call in `_handle_tool_calls`. -/
def toolResponse (env : SessEnv) (fc : FunctionCall) : FunctionResponse :=
  if fc.name ≠ some "control_home_assistant" then
    ⟨fc.id, nameOrUnknown fc.name, .obj [("ok", .bool false), ("error", .str "Unknown tool")]⟩
  else
    let okMsg := (executeControlHA env fc.args).1
    ⟨fc.id, "control_home_assistant",
      .obj [("ok", .bool okMsg.1), ("result", .str okMsg.2)]⟩

/-- The full response list of `_handle_tool_calls` for one batch. -/
def toolResponses (env : SessEnv) (fcs : List FunctionCall) : List FunctionResponse :=
  fcs.map (toolResponse env)

/-- `_handle_tool_calls`: build all responses, then submit them in a single
reply on the session when the list is non-empty (`send_tool_response`, or
the generic `send` fallback — one submission either way). -/
def handleToolCalls (env : SessEnv) (fcs : List FunctionCall) :
    Option (List FunctionResponse) :=
  let responses := toolResponses env fcs
  if responses ≠ [] then some responses else none

/-- A message yielded by the session iterator, as `_recv_loop` reads it:
an optional raw `data` byte field, the `server_content.model_turn.parts`
(each part: `some bytes` when it has `inline_data` whose `data` is a bytes
object, else `none`; an absent envelope is the empty part list), optional
text, and the `tool_call.function_calls` list (absent or falsy = `[]`). -/
structure LiveMsg where
  data : Option (List Int)
  parts : List (Option (List Int))
  text : Option String
  toolCalls : List FunctionCall

/-- First part carrying an `inline_data` bytes payload (`break` on hit). -/
def firstInlineData : List (Option (List Int)) → Option (List Int)
  | [] => none
  | some d :: _ => some d
  | none :: rest => firstInlineData rest

/-- Audio extraction of `_recv_loop`: the fast path takes `msg.data` when
it is a truthy (non-empty) bytes object; otherwise the slow path scans the
model-turn parts. -/
def extractAudio (m : LiveMsg) : Option (List Int) :=
  match m.data with
  | some d => if d ≠ [] then some d else firstInlineData m.parts
  | none => firstInlineData m.parts

/-- The mutable controller state that `_recv_loop` touches. -/
structure RecvState where
  output_stream_open : Bool
  barge_in : Bool
deriving DecidableEq

/-- An output callback invocation (`OutputAudioCallbacks`). -/
inductive OutEvent where
  | start (rate : Nat)
  | chunk (pcm : List Int) (rate : Nat)
  | stop
deriving DecidableEq

/-- Processing of one message inside the `async for` body of `_recv_loop`:
returns the new state, the output callbacks invoked, and the tool-response
submissions sent on the session. -/
def processMsg (env : SessEnv) (st : RecvState) (m : LiveMsg) :
    RecvState × List OutEvent × List (List FunctionResponse) :=
  let stAudio :=
    match extractAudio m with
    | some audio_bytes =>
      if audio_bytes ≠ [] then
        if st.barge_in then (st, ([] : List OutEvent))
        else
          let pcm_out := resample_pcm16 env.taps audio_bytes
            env.gemini_output_sample_rate_hz env.output_sample_rate_hz
          if ¬ st.output_stream_open then
            ({st with output_stream_open := true},
              [.start env.output_sample_rate_hz, .chunk pcm_out env.output_sample_rate_hz])
          else (st, [.chunk pcm_out env.output_sample_rate_hz])
      else (st, [])
    | none => (st, [])
  let tools :=
    if m.toolCalls ≠ [] then
      match handleToolCalls env m.toolCalls with
      | some rs => [rs]
      | none => []
    else []
  (stAudio.1, stAudio.2, tools)

/-- One step observed while iterating a turn: a message from the session,
or one of the two flag writes the Wyoming handler performs concurrently
(`notify_barge_in` sets `barge_in`; `enqueue_audio` clears it). -/
inductive TurnItem where
  | message (m : LiveMsg)
  | bargeIn
  | userAudio

/-- How the turn iterator ended: normal completion, or an exception whose
type name is `exnName`. -/
inductive TurnEnd where
  | completed
  | errored (exnName : String)

structure Turn where
  items : List TurnItem
  term : TurnEnd

/-- Iterating the items of one turn. -/
def processItems (env : SessEnv) (st : RecvState) :
    List TurnItem → RecvState × List OutEvent × List (List FunctionResponse)
  | [] => (st, [], [])
  | .bargeIn :: rest => processItems env {st with barge_in := true} rest
  | .userAudio :: rest => processItems env {st with barge_in := false} rest
  | .message m :: rest =>
    let step := processMsg env st m
    let next := processItems env step.1 rest
    (next.1, step.2.1 ++ next.2.1, step.2.2 ++ next.2.2)

/-- The `"ConnectionClosedOK" in type(e).__name__` test of `_recv_loop`. -/
def isGracefulClose (exnName : String) : Bool :=
  strContains exnName "ConnectionClosedOK"

/-- Outcome of one pass of the `while True` body of `_recv_loop`. -/
inductive TurnOutcome where
  | completed
  | gracefulClose
  | raised (exnName : String)
deriving DecidableEq

/-- One pass of the `while True` body of `_recv_loop`: clear `barge_in`,
iterate the items, then either close the output stream at turn-complete,
break on a `ConnectionClosedOK`-named exception, or re-raise. -/
def processTurn (env : SessEnv) (st : RecvState) (t : Turn) :
    RecvState × List OutEvent × List (List FunctionResponse) × TurnOutcome :=
  let st0 := {st with barge_in := false}
  let body := processItems env st0 t.items
  let st1 := body.1
  let evts := body.2.1
  let tools := body.2.2
  match t.term with
  | .completed =>
    if st1.output_stream_open then
      ({st1 with output_stream_open := false}, evts ++ [.stop], tools, .completed)
    else (st1, evts, tools, .completed)
  | .errored exnName =>
    if isGracefulClose exnName then (st1, evts, tools, .gracefulClose)
    else (st1, evts, tools, .raised exnName)

/-- How `_recv_loop` left its `while True` loop: turn list exhausted (the
loop was still awaiting the session when the task got cancelled), graceful
break, or a propagated exception. -/
inductive LoopExit where
  | cancelled
  | gracefulClose
  | raised (exnName : String)
deriving DecidableEq

/-- `_recv_loop` over the whole connection. -/
def recvLoop (env : SessEnv) (st : RecvState) :
    List Turn → RecvState × List OutEvent × List (List FunctionResponse) × LoopExit
  | [] => (st, [], [], .cancelled)
  | t :: ts =>
    let r := processTurn env st t
    match r.2.2.2 with
    | .completed =>
      let rest := recvLoop env r.1 ts
      (rest.1, r.2.1 ++ rest.2.1, r.2.2.1 ++ rest.2.2.1, rest.2.2.2)
    | .gracefulClose => (r.1, r.2.1, r.2.2.1, .gracefulClose)
    | .raised n => (r.1, r.2.1, r.2.2.1, .raised n)

/-- The `finally` block of `_run`: whatever ended the session (cancellation
through `stop()`, a crashed session, or a loop exit), close the output
stream if it is still open. -/
def runFinalize (st : RecvState) (evts : List OutEvent) : List OutEvent :=
  if st.output_stream_open then evts ++ [.stop] else evts

/-- The session task `_run` from a given controller state: run the receive
loop, then run the `finally` block.  Returns the full downstream callback
trace, the tool submissions, and the loop exit. -/
def runSessionFrom (env : SessEnv) (st : RecvState) (turns : List Turn) :
    List OutEvent × List (List FunctionResponse) × LoopExit :=
  let r := recvLoop env st turns
  (runFinalize r.1 r.2.1, r.2.2.1, r.2.2.2)

/-- One full session: the controller starts with the output stream closed
and `barge_in` clear (`__init__`). -/
def runSession (env : SessEnv) (turns : List Turn) :
    List OutEvent × List (List FunctionResponse) × LoopExit :=
  runSessionFrom env ⟨false, false⟩ turns

/-! ## Wyoming edge adapter (`wyoming_handler.py`)

The downstream side of the adapter translates controller callbacks into
Wyoming events written to the edge socket.
-/

/-- A Wyoming audio event as the handler writes it. -/
inductive WyomingEvent where
  | audioStart (rate width channels : Nat)
  | audioChunk (rate : Nat) (audio : List Int) (timestamp : Nat)
  | audioStop
deriving DecidableEq

/-- `GeminiLiveEventHandler._send_audio_start`. -/
def send_audio_start (rate_hz : Nat) : List WyomingEvent :=
  [.audioStart rate_hz 2 1]

/-- Modelled from the spec: `GeminiLiveEventHandler._send_audio_chunk`.
The source file `wyoming_handler.py` contains a duplicated
`async def _send_audio_chunk` header (lines 95–96), which is a Python
`IndentationError`: the module as shipped cannot be imported, so this
function body never runs.  The indented body under the duplicate header
(and §4.5 of the spec) writes exactly one audio-chunk event carrying the
given rate and payload, with `timestamp=0`; that body is what is modelled
here. -/
def send_audio_chunk (pcm16 : List Int) (rate_hz : Nat) : List WyomingEvent :=
  [.audioChunk rate_hz pcm16 0]

/-- `GeminiLiveEventHandler._send_audio_stop`. -/
def send_audio_stop : List WyomingEvent :=
  [.audioStop]

/-- The downstream events for one controller callback. -/
def adapterEmit : OutEvent → List WyomingEvent
  | .start rate => send_audio_start rate
  | .chunk pcm rate => send_audio_chunk pcm rate
  | .stop => send_audio_stop

/-! ## Helper lemmas: the output-stream open/close discipline -/

/-- Scan a callback trace, tracking whether the output stream is open:
`none` when a start fires while open or a stop fires while closed,
otherwise `some` of the final open flag.  `scanOpen false tr = some false`
says exactly that the trace, restricted to start/stop, is a strict
alternation `start stop start stop …` ending closed. -/
def scanOpen : Bool → List OutEvent → Option Bool
  | b, [] => some b
  | b, .start _ :: rest => if b then none else scanOpen true rest
  | b, .stop :: rest => if b then scanOpen false rest else none
  | b, .chunk _ _ :: rest => scanOpen b rest

theorem scanOpen_append (b : Bool) (l1 l2 : List OutEvent) :
    scanOpen b (l1 ++ l2) =
      match scanOpen b l1 with
      | some b' => scanOpen b' l2
      | none => none := by
  induction l1 generalizing b with
  | nil => simp [scanOpen]
  | cons e rest ih =>
    cases e with
    | start r =>
      by_cases hb : b <;> simp [scanOpen, hb, ih]
    | chunk p r => simp [scanOpen, ih]
    | stop =>
      by_cases hb : b <;> simp [scanOpen, hb, ih]

/-- `processMsg` never breaks the discipline: its events scan from the open
flag before to the open flag after. -/
theorem processMsg_scanOpen (env : SessEnv) (st : RecvState) (m : LiveMsg) :
    scanOpen st.output_stream_open (processMsg env st m).2.1 =
      some (processMsg env st m).1.output_stream_open := by
  unfold processMsg
  cases hx : extractAudio m with
  | none => simp [scanOpen]
  | some audio_bytes =>
    by_cases hne : audio_bytes ≠ [] <;> simp [hne, scanOpen]
    by_cases hb : st.barge_in <;> simp [hb, scanOpen]
    by_cases ho : st.output_stream_open <;> simp [ho, scanOpen]

/-- `processMsg` does not change `barge_in`. -/
theorem processMsg_barge (env : SessEnv) (st : RecvState) (m : LiveMsg) :
    (processMsg env st m).1.barge_in = st.barge_in := by
  unfold processMsg
  cases hx : extractAudio m with
  | none => simp
  | some audio_bytes =>
    by_cases hne : audio_bytes ≠ []
    · by_cases hb : st.barge_in = true
      · simp [hne, hb]
      · by_cases ho : st.output_stream_open = true
        · simp [hne, hb, ho]
        · simp [hne, hb, ho]
    · simp [hne]

/-- With `barge_in` set, a message is fully discarded: no output events
and an unchanged state. -/
theorem processMsg_bargeIn (env : SessEnv) (st : RecvState) (m : LiveMsg)
    (hb : st.barge_in = true) :
    (processMsg env st m).1 = st ∧ (processMsg env st m).2.1 = [] := by
  unfold processMsg
  cases hx : extractAudio m with
  | none => simp
  | some audio_bytes =>
    by_cases hne : audio_bytes ≠ [] <;> simp [hne, hb]

/-- A message that extracts no (truthy) audio emits nothing and leaves the
state unchanged. -/
theorem processMsg_noAudio (env : SessEnv) (st : RecvState) (m : LiveMsg)
    (hx : extractAudio m = none ∨ extractAudio m = some []) :
    (processMsg env st m).1 = st ∧ (processMsg env st m).2.1 = [] := by
  rcases hx with hx | hx <;> simp [processMsg, hx]

theorem processItems_scanOpen (env : SessEnv) (items : List TurnItem) :
    ∀ st : RecvState,
      scanOpen st.output_stream_open (processItems env st items).2.1 =
        some (processItems env st items).1.output_stream_open := by
  induction items with
  | nil => intro st; simp [processItems, scanOpen]
  | cons it rest ih =>
    intro st
    cases it with
    | bargeIn => simpa [processItems] using ih {st with barge_in := true}
    | userAudio => simpa [processItems] using ih {st with barge_in := false}
    | message m =>
      simp only [processItems]
      rw [scanOpen_append, processMsg_scanOpen]
      exact ih (processMsg env st m).1

theorem processTurn_scanOpen (env : SessEnv) (st : RecvState) (t : Turn) :
    scanOpen st.output_stream_open (processTurn env st t).2.1 =
      some (processTurn env st t).1.output_stream_open := by
  obtain ⟨items, term⟩ := t
  have hbody := processItems_scanOpen env items {st with barge_in := false}
  cases term with
  | completed =>
    by_cases ho : (processItems env {st with barge_in := false} items).1.output_stream_open
    · simp only [processTurn, ho, if_true, ite_true]
      rw [scanOpen_append]
      simp only [hbody]
      simp [scanOpen, ho]
    · simp only [processTurn, ho, if_false, ite_false]
      simpa [ho] using hbody
  | errored exnName =>
    by_cases hg : isGracefulClose exnName <;> simp [processTurn, hg, hbody]

/-- A turn that completes normally hands the next turn a closed stream. -/
theorem processTurn_completed_closed (env : SessEnv) (st : RecvState) (t : Turn)
    (h : (processTurn env st t).2.2.2 = TurnOutcome.completed) :
    (processTurn env st t).1.output_stream_open = false := by
  obtain ⟨items, term⟩ := t
  cases term with
  | completed =>
    by_cases ho : (processItems env {st with barge_in := false} items).1.output_stream_open <;>
      simp [processTurn, ho]
  | errored exnName =>
    by_cases hg : isGracefulClose exnName <;> simp [processTurn, hg] at h

theorem recvLoop_scanOpen (env : SessEnv) (turns : List Turn) :
    ∀ st : RecvState,
      scanOpen st.output_stream_open (recvLoop env st turns).2.1 =
        some (recvLoop env st turns).1.output_stream_open := by
  induction turns with
  | nil => intro st; simp [recvLoop, scanOpen]
  | cons t ts ih =>
    intro st
    have hturn := processTurn_scanOpen env st t
    cases hout : (processTurn env st t).2.2.2 with
    | completed =>
      simp only [recvLoop, hout]
      rw [scanOpen_append, hturn]
      exact ih (processTurn env st t).1
    | gracefulClose =>
      simp only [recvLoop, hout]
      exact hturn
    | raised n =>
      simp only [recvLoop, hout]
      exact hturn

/-- The full session trace scans cleanly from closed to closed. -/
theorem runSession_scanOpen (env : SessEnv) (turns : List Turn) :
    scanOpen false (runSession env turns).1 = some false := by
  have h : scanOpen false (recvLoop env ⟨false, false⟩ turns).2.1 =
      some (recvLoop env ⟨false, false⟩ turns).1.output_stream_open :=
    recvLoop_scanOpen env turns ⟨false, false⟩
  unfold runSession runSessionFrom runFinalize
  dsimp only
  by_cases ho : (recvLoop env ⟨false, false⟩ turns).1.output_stream_open = true
  · rw [if_pos ho, scanOpen_append, h, ho]
    simp [scanOpen]
  · rw [if_neg ho, h]
    have ho' : (recvLoop env ⟨false, false⟩ turns).1.output_stream_open = false := by
      revert ho
      cases (recvLoop env ⟨false, false⟩ turns).1.output_stream_open <;> simp
    rw [ho']

/-! ## Helper lemmas: barge-in suppression -/

/-- Does the item carry a truthy audio payload? -/
def itemNoAudio : TurnItem → Bool
  | .message m =>
    match extractAudio m with
    | none => true
    | some d => d.isEmpty
  | .bargeIn => true
  | .userAudio => true

/-- Is the item the `enqueue_audio` flag clear? -/
def itemIsUserAudio : TurnItem → Bool
  | .userAudio => true
  | _ => false

theorem processItems_append (env : SessEnv) (l1 l2 : List TurnItem) :
    ∀ st : RecvState,
      processItems env st (l1 ++ l2) =
        ((processItems env (processItems env st l1).1 l2).1,
          (processItems env st l1).2.1 ++ (processItems env (processItems env st l1).1 l2).2.1,
          (processItems env st l1).2.2 ++ (processItems env (processItems env st l1).1 l2).2.2) := by
  induction l1 with
  | nil => intro st; simp [processItems]
  | cons it rest ih =>
    intro st
    cases it with
    | bargeIn => simpa [processItems] using ih {st with barge_in := true}
    | userAudio => simpa [processItems] using ih {st with barge_in := false}
    | message m => simp [processItems, ih (processMsg env st m).1]

/-- Items without truthy audio emit nothing and leave the open flag alone. -/
theorem processItems_noAudio (env : SessEnv) (items : List TurnItem)
    (h : ∀ it ∈ items, itemNoAudio it = true) :
    ∀ st : RecvState,
      (processItems env st items).1.output_stream_open = st.output_stream_open ∧
        (processItems env st items).2.1 = [] := by
  induction items with
  | nil => intro st; simp [processItems]
  | cons it rest ih =>
    intro st
    have hit : itemNoAudio it = true := h it (by simp)
    have hrest : ∀ it ∈ rest, itemNoAudio it = true := fun x hx => h x (by simp [hx])
    cases it with
    | bargeIn => simpa [processItems] using ih hrest {st with barge_in := true}
    | userAudio => simpa [processItems] using ih hrest {st with barge_in := false}
    | message m =>
      have hx : extractAudio m = none ∨ extractAudio m = some [] := by
        cases hxa : extractAudio m with
        | none => exact Or.inl rfl
        | some d =>
          cases d with
          | nil => exact Or.inr rfl
          | cons a as =>
            exfalso
            have hit2 := hit
            simp [itemNoAudio, hxa] at hit2
      have hmsg := processMsg_noAudio env st m hx
      simp only [processItems, hmsg.1, hmsg.2]
      have := ih hrest st
      simpa [hmsg.1] using this

/-- `RecvState` eta: re-setting `barge_in` to its current value is the
identity. -/
theorem recvState_eta_barge (st : RecvState) (hb : st.barge_in = true) :
    ({st with barge_in := true} : RecvState) = st := by
  cases st
  simp_all

/-- Once `barge_in` is set, items without a `userAudio` clear discard
everything: state unchanged, no output events. -/
theorem processItems_barged (env : SessEnv) (items : List TurnItem)
    (h : ∀ it ∈ items, itemIsUserAudio it = false) :
    ∀ st : RecvState, st.barge_in = true →
      (processItems env st items).1 = st ∧ (processItems env st items).2.1 = [] := by
  induction items with
  | nil => intro st _; simp [processItems]
  | cons it rest ih =>
    intro st hb
    have hrest : ∀ it ∈ rest, itemIsUserAudio it = false := fun x hx => h x (by simp [hx])
    cases it with
    | bargeIn =>
      have : ({st with barge_in := true} : RecvState) = st := recvState_eta_barge st hb
      simpa [processItems, this] using ih hrest st hb
    | userAudio =>
      have := h TurnItem.userAudio (by simp)
      simp [itemIsUserAudio] at this
    | message m =>
      have hmsg := processMsg_bargeIn env st m hb
      simp only [processItems, hmsg.1, hmsg.2]
      simpa using ih hrest st hb

/-- A turn in which `barge_in` is set before any truthy audio byte and
never cleared again emits no output callback at all. -/
theorem processTurn_bargedTurn (env : SessEnv) (st : RecvState)
    (pre post : List TurnItem) (term : TurnEnd)
    (hopen : st.output_stream_open = false)
    (hpre : ∀ it ∈ pre, itemNoAudio it = true)
    (hpost : ∀ it ∈ post, itemIsUserAudio it = false) :
    (processTurn env st ⟨pre ++ TurnItem.bargeIn :: post, term⟩).2.1 = [] := by
  have hst0 : ({st with barge_in := false} : RecvState).output_stream_open = false := hopen
  have h1 := processItems_noAudio env pre hpre ({st with barge_in := false})
  set st1 := (processItems env {st with barge_in := false} pre).1 with hst1
  have hopen1 : st1.output_stream_open = false := by rw [h1.1]; exact hst0
  have h2 := processItems_barged env post hpost {st1 with barge_in := true} rfl
  have hitems :
      (processItems env {st with barge_in := false} (pre ++ TurnItem.bargeIn :: post)).2.1 = []
      ∧ (processItems env {st with barge_in := false}
          (pre ++ TurnItem.bargeIn :: post)).1.output_stream_open = false := by
    rw [processItems_append]
    constructor
    · rw [h1.2]
      simp only [List.nil_append]
      show (processItems env st1 (TurnItem.bargeIn :: post)).2.1 = []
      simp only [processItems]
      exact h2.2
    · show (processItems env st1 (TurnItem.bargeIn :: post)).1.output_stream_open = false
      simp only [processItems]
      rw [h2.1]
      exact hopen1
  unfold processTurn
  cases term with
  | completed =>
    simp only [hitems.2, ite_false, Bool.false_eq_true, if_false]
    exact hitems.1
  | errored exnName =>
    by_cases hg : isGracefulClose exnName <;> simp [hg, hitems.1]

/-! ## Helper lemmas: dict keys under merge (for the tool-call data) -/

theorem dictHasKey_set (d : List (String × JVal)) (k' : String) (v : JVal) (k : String) :
    dictHasKey (dictSet d k' v) k = true ↔ (dictHasKey d k = true ∨ k' = k) := by
  unfold dictSet
  by_cases hd : d.any (fun kv => kv.1 = k') = true
  · simp only [hd, if_true, ite_true]
    unfold dictHasKey
    rw [List.any_map]
    constructor
    · intro h
      rw [List.any_eq_true] at h
      obtain ⟨kv, hkv, hp⟩ := h
      simp only [Function.comp] at hp
      by_cases hk : kv.1 = k'
      · simp only [hk, if_pos, ite_true] at hp
        right
        exact of_decide_eq_true hp
      · simp only [hk, if_neg, ite_false] at hp
        left
        rw [List.any_eq_true]
        exact ⟨kv, hkv, hp⟩
    · intro h
      rcases h with h | h
      · rw [List.any_eq_true] at h
        obtain ⟨kv, hkv, hp⟩ := h
        rw [List.any_eq_true]
        refine ⟨kv, hkv, ?_⟩
        simp only [Function.comp]
        by_cases hk : kv.1 = k'
        · have : kv.1 = k := of_decide_eq_true hp
          simp [hk, ← this]
        · simp [hk]
          exact of_decide_eq_true hp
      · rw [List.any_eq_true] at hd
        obtain ⟨kv, hkv, hp⟩ := hd
        rw [List.any_eq_true]
        refine ⟨kv, hkv, ?_⟩
        simp only [Function.comp]
        have : kv.1 = k' := of_decide_eq_true hp
        simp [this, h]
  · simp only [hd, if_false, Bool.false_eq_true, ite_false]
    unfold dictHasKey
    rw [List.any_append]
    simp [dictHasKey]

theorem dictHasKey_update (e : List (String × JVal)) :
    ∀ d : List (String × JVal) , ∀ k : String,
      (dictHasKey (dictUpdate d e) k = true ↔
        (dictHasKey d k = true ∨ dictHasKey e k = true)) := by
  induction e with
  | nil => intro d k; simp [dictUpdate, dictHasKey]
  | cons kv rest ih =>
    intro d k
    have step : dictUpdate d (kv :: rest) = dictUpdate (dictSet d kv.1 kv.2) rest := rfl
    rw [step, ih]
    rw [dictHasKey_set]
    constructor
    · rintro ((h | h) | h)
      · exact Or.inl h
      · refine Or.inr ?_
        unfold dictHasKey
        simp [h]
      · refine Or.inr ?_
        unfold dictHasKey at h ⊢
        simp [h]
    · rintro (h | h)
      · exact Or.inl (Or.inl h)
      · unfold dictHasKey at h
        rw [List.any_cons] at h
        rcases Bool.or_eq_true_iff.mp h with h | h
        · exact Or.inl (Or.inr (of_decide_eq_true h))
        · exact Or.inr h

/-! ## Helper lemmas: the entity filter -/

/-- The filter rules of §4.3 for one produced `EntityView`. -/
def viewAdmissible (fnm : String → String → Bool)
    (allowed_domains allowlist blocklist : List String) (e : EntityView) : Prop :=
  e.entity_id ≠ "" ∧
  (allowed_domains ≠ [] → allowed_domains.contains e.domain = true) ∧
  (allowlist ≠ [] → matches_any fnm allowlist e.entity_id = true) ∧
  matches_any fnm blocklist e.entity_id = false

theorem filter_entities_go_mem (fnm : String → String → Bool)
    (allowed_domains allowlist blocklist : List String) (max_entities : Int)
    (states : List (List (String × JVal))) :
    ∀ out : List EntityView,
      (∀ e ∈ out, viewAdmissible fnm allowed_domains allowlist blocklist e) →
      ∀ e ∈ filter_entities_go fnm allowed_domains allowlist blocklist max_entities states out,
        viewAdmissible fnm allowed_domains allowlist blocklist e := by
  induction states with
  | nil =>
    intro out hout e he
    exact hout e (by simpa [filter_entities_go] using he)
  | cons s rest ih =>
    intro out hout e he
    rw [filter_entities_go] at he
    by_cases h1 : pyStrip (pyStr (dictGetD s "entity_id" (.str ""))) = ""
    · rw [if_pos h1] at he
      exact ih out hout e he
    · rw [if_neg h1] at he
      set entity_id := pyStrip (pyStr (dictGetD s "entity_id" (.str ""))) with hid
      by_cases h2 : allowed_domains ≠ [] ∧ ¬ allowed_domains.contains (entityDomain entity_id)
      · rw [if_pos h2] at he
        exact ih out hout e he
      · rw [if_neg h2] at he
        by_cases h3 : allowlist ≠ [] ∧ ¬ matches_any fnm allowlist entity_id
        · rw [if_pos h3] at he
          exact ih out hout e he
        · rw [if_neg h3] at he
          by_cases h4 : blocklist ≠ [] ∧ matches_any fnm blocklist entity_id
          · rw [if_pos h4] at he
            exact ih out hout e he
          · rw [if_neg h4] at he
            have hadm : viewAdmissible fnm allowed_domains allowlist blocklist
                (mkEntityView s entity_id (entityDomain entity_id)) := by
              refine ⟨h1, ?_, ?_, ?_⟩
              · intro hD
                rcases not_and_or.mp h2 with h | h
                · exact absurd hD h
                · simpa [mkEntityView] using not_not.mp h
              · intro hA
                rcases not_and_or.mp h3 with h | h
                · exact absurd hA h
                · simpa [mkEntityView] using not_not.mp h
              · rcases not_and_or.mp h4 with h | h
                · have hB : blocklist = [] := not_not.mp h
                  simp [hB, matches_any, mkEntityView]
                · simpa [mkEntityView] using h
            have hout' : ∀ x ∈ out ++ [mkEntityView s entity_id (entityDomain entity_id)],
                viewAdmissible fnm allowed_domains allowlist blocklist x := by
              intro x hx
              rcases List.mem_append.mp hx with hx | hx
              · exact hout x hx
              · rw [List.mem_singleton] at hx
                rw [hx]
                exact hadm
            by_cases h5 : (((out ++ [mkEntityView s entity_id (entityDomain entity_id)]).length :
                Int)) ≥ max_entities
            · rw [if_pos h5] at he
              exact hout' e he
            · rw [if_neg h5] at he
              exact ih _ hout' e he

theorem filter_entities_go_length (fnm : String → String → Bool)
    (allowed_domains allowlist blocklist : List String) (max_entities : Int)
    (states : List (List (String × JVal))) :
    ∀ out : List EntityView,
      ((out.length : Int) < max_entities ∨ out = []) →
      ((filter_entities_go fnm allowed_domains allowlist blocklist max_entities
          states out).length : Int) ≤ max max_entities 1 := by
  induction states with
  | nil =>
    intro out hout
    rw [filter_entities_go]
    rcases hout with h | h
    · rcases le_or_lt max_entities 1 with hm | hm
      · have : (out.length : Int) ≥ 0 := by positivity
        omega
      · have : max max_entities 1 = max_entities := by omega
        omega
    · subst h
      simp
  | cons s rest ih =>
    intro out hout
    rw [filter_entities_go]
    by_cases h1 : pyStrip (pyStr (dictGetD s "entity_id" (.str ""))) = ""
    · rw [if_pos h1]; exact ih out hout
    · rw [if_neg h1]
      by_cases h2 : allowed_domains ≠ [] ∧
          ¬ allowed_domains.contains (entityDomain (pyStrip (pyStr (dictGetD s "entity_id" (.str "")))))
      · rw [if_pos h2]; exact ih out hout
      · rw [if_neg h2]
        by_cases h3 : allowlist ≠ [] ∧
            ¬ matches_any fnm allowlist (pyStrip (pyStr (dictGetD s "entity_id" (.str ""))))
        · rw [if_pos h3]; exact ih out hout
        · rw [if_neg h3]
          by_cases h4 : blocklist ≠ [] ∧
              matches_any fnm blocklist (pyStrip (pyStr (dictGetD s "entity_id" (.str ""))))
          · rw [if_pos h4]; exact ih out hout
          · rw [if_neg h4]
            have hlen : (((out ++ [mkEntityView s (pyStrip (pyStr (dictGetD s "entity_id"
                (.str "")))) (entityDomain (pyStrip (pyStr (dictGetD s "entity_id"
                (.str "")))))]).length : Int)) = (out.length : Int) + 1 := by
              simp
            by_cases h5 : (((out ++ [mkEntityView s (pyStrip (pyStr (dictGetD s "entity_id"
                (.str "")))) (entityDomain (pyStrip (pyStr (dictGetD s "entity_id"
                (.str "")))))]).length : Int)) ≥ max_entities
            · rw [if_pos h5]
              rcases hout with h | h
              · omega
              · have h0 : (out.length : Int) = 0 := by rw [h]; simp
                omega
            · rw [if_neg h5]
              exact ih _ (Or.inl (by omega))

/-! ## Helper lemmas: the resampler on the zero signal -/

theorem getD_replicate_zero : ∀ n m : Nat, (List.replicate n (0 : ℚ)).getD m 0 = 0
  | 0, _ => by simp
  | n + 1, 0 => by simp [List.replicate]
  | n + 1, m + 1 => by
    simp only [List.replicate, List.getD_cons_succ]
    exact getD_replicate_zero n m

theorem foldl_skip {α β : Type} : ∀ (l : List β) (acc : α), l.foldl (fun a _ => a) acc = acc
  | [], _ => rfl
  | _ :: xs, acc => foldl_skip xs acc

theorem upfirdnSample_zero (h : List ℚ) (n up down t : Nat) :
    upfirdnSample h (List.replicate n 0) up down t = 0 := by
  unfold upfirdnSample
  simp only [getD_replicate_zero, zero_mul, add_zero]
  exact foldl_skip _ 0

theorem upfirdn_zero (h : List ℚ) (n up down : Nat) :
    upfirdn h (List.replicate n 0) up down =
      List.replicate (output_len h.length n up down) 0 := by
  unfold upfirdn
  rw [List.length_replicate]
  refine List.eq_replicate_iff.mpr ⟨by simp, ?_⟩
  intro b hb
  rw [List.mem_map] at hb
  obtain ⟨t, _, ht⟩ := hb
  rw [← ht, upfirdnSample_zero]

/-- The post-padding loop of `resample_poly` pads the filter far enough that
`upfirdn` produces at least `target = n_out + n_pre_remove` samples. -/
theorem output_len_ge_target (n up down len0 pre target : Nat)
    (hdown : 0 < down) (_hlen0 : 0 < len0) (ht : 0 < target) :
    target ≤
      output_len (pre + len0 + ((down * (target - 1) + 1) - (n - 1) * up - (len0 + pre)))
        n up down := by
  set post := (down * (target - 1) + 1) - (n - 1) * up - (len0 + pre) with hpost
  have hsum : down * (target - 1) + 1 ≤ (n - 1) * up + (pre + len0 + post) := by omega
  unfold output_len
  have h2 : target - 1 ≤ ((n - 1) * up + (pre + len0 + post) - 1) / down := by
    refine (Nat.le_div_iff_mul_le hdown).mpr ?_
    calc (target - 1) * down = down * (target - 1) := Nat.mul_comm _ _
    _ ≤ (n - 1) * up + (pre + len0 + post) - 1 := by omega
  omega

/-- `ceilDivNat` via floor division and remainder. -/
theorem ceilDivNat_eq (a b : Nat) (hb : 0 < b) :
    ceilDivNat a b = a / b + (if a % b ≠ 0 then 1 else 0) := by
  unfold ceilDivNat
  have hmod := Nat.div_add_mod a b
  have hr : a % b < b := Nat.mod_lt _ hb
  by_cases h0 : a % b = 0
  · have ha : a + b - 1 = b * (a / b) + (b - 1) := by omega
    rw [ha, Nat.mul_add_div hb, Nat.div_eq_of_lt (show b - 1 < b by omega)]
    simp [h0]
  · have ha : a + b - 1 = b * (a / b + 1) + (a % b - 1) := by
      have hexp : b * (a / b + 1) = b * (a / b) + b := by ring
      omega
    rw [ha, Nat.mul_add_div hb, Nat.div_eq_of_lt (show a % b - 1 < b by omega)]
    simp [h0]

/-- Ceiling division is invariant under scaling numerator and denominator. -/
theorem ceilDivNat_mul_left (g a b : Nat) (hg : 0 < g) (hb : 0 < b) :
    ceilDivNat (g * a) (g * b) = ceilDivNat a b := by
  by_cases ha : a = 0
  · subst ha
    unfold ceilDivNat
    have hgb : 0 < g * b := by positivity
    rw [Nat.mul_zero]
    rw [Nat.div_eq_of_lt (show 0 + g * b - 1 < g * b by omega),
      Nat.div_eq_of_lt (show 0 + b - 1 < b by omega)]
  · have ha1 : 1 ≤ a := Nat.one_le_iff_ne_zero.mpr ha
    have hga1 : 1 ≤ g * a := Nat.one_le_iff_ne_zero.mpr (by positivity)
    unfold ceilDivNat
    have e1 : a + b - 1 = (a - 1) + b := by omega
    have e2 : g * a + g * b - 1 = (g * a - 1) + g * b := by
      have : 1 ≤ g * b := Nat.one_le_iff_ne_zero.mpr (by positivity)
      omega
    rw [e1, e2, Nat.add_div_right _ hb, Nat.add_div_right _ (by positivity)]
    congr 1
    rw [← Nat.div_div_eq_div_mul]
    congr 1
    have hga : g * a = g * (a - 1) + g := by
      obtain ⟨a', rfl⟩ : ∃ a', a = a' + 1 := ⟨a - 1, by omega⟩
      simp [Nat.mul_succ]
    have e3 : g * a - 1 = g * (a - 1) + (g - 1) := by omega
    rw [e3, Nat.mul_add_div hg, Nat.div_eq_of_lt (show g - 1 < g by omega), Nat.add_zero]

theorem n_out_pos (n up down : Nat) (hn : 0 < n) (hup : 0 < up) (hdown : 0 < down) :
    0 < n * up / down + (if n * up % down ≠ 0 then 1 else 0) := by
  by_cases h : n * up % down = 0
  · have hdvd : down ∣ n * up := Nat.dvd_of_mod_eq_zero h
    have hle : down ≤ n * up := Nat.le_of_dvd (by positivity) hdvd
    have hpos := Nat.div_pos hle hdown
    have hif : (if n * up % down ≠ 0 then 1 else 0) = 0 := by simp [h]
    rw [hif]
    simpa using hpos
  · have hif : (if n * up % down ≠ 0 then 1 else 0) = 1 := by simp [h]
    rw [hif]
    exact Nat.succ_pos _

/-- `resample_poly` maps the zero signal of length `n` to the zero signal
of length `ceil(n·up/down)` — for every choice of FIR tap values. -/
theorem resample_poly_zero (taps : Nat → ℚ) (n up down : Nat)
    (hn : 0 < n) (hup : 0 < up) (hdown : 0 < down) :
    resample_poly taps (List.replicate n 0) up down =
      List.replicate (n * up / down + (if n * up % down ≠ 0 then 1 else 0)) 0 := by
  unfold resample_poly
  simp only [List.length_replicate]
  rw [upfirdn_zero, List.drop_replicate, List.take_replicate]
  congr 1
  refine Nat.min_eq_left ?_
  simp only [List.length_append, List.length_replicate, List.length_map, List.length_range]
  have ht : 0 < (n * up / down + (if n * up % down ≠ 0 then 1 else 0)) +
      (10 * max up down + (down - 10 * max up down % down)) / down :=
    Nat.add_pos_left (n_out_pos n up down hn hup hdown) _
  have hkey := output_len_ge_target n up down (2 * (10 * max up down) + 1)
    (down - 10 * max up down % down)
    ((n * up / down + (if n * up % down ≠ 0 then 1 else 0)) +
      (10 * max up down + (down - 10 * max up down % down)) / down)
    hdown (by omega) ht
  omega

/-- `resample_pcm16` maps the PCM16 zero signal of `n` samples to the zero
signal of exactly `⌈n·dst/src⌉` samples, for any distinct positive rates
and any FIR taps. -/
theorem resample_pcm16_zero (taps : Nat → ℚ) (n src dst : Nat)
    (hne : src ≠ dst) (hsrc : 0 < src) (hdst : 0 < dst) :
    resample_pcm16 taps (List.replicate n 0) src dst =
      List.replicate (ceilDivNat (n * dst) src) 0 := by
  rcases Nat.eq_zero_or_pos n with hn | hn
  · subst hn
    unfold resample_pcm16
    rw [if_neg hne, if_pos (by simp)]
    unfold ceilDivNat
    rw [Nat.zero_mul, Nat.div_eq_of_lt (by omega)]
    simp
  · unfold resample_pcm16
    rw [if_neg hne]
    rw [if_neg (by simp [Nat.pos_iff_ne_zero.mp hn] : ¬ List.replicate n (0 : Int) = [])]
    dsimp only
    have hg : 0 < Nat.gcd src dst := Nat.gcd_pos_of_pos_left _ hsrc
    have hup : 0 < dst / Nat.gcd src dst :=
      Nat.div_pos (Nat.le_of_dvd hdst (Nat.gcd_dvd_right _ _)) hg
    have hdown : 0 < src / Nat.gcd src dst :=
      Nat.div_pos (Nat.le_of_dvd hsrc (Nat.gcd_dvd_left _ _)) hg
    have hcast : (List.replicate n (0 : Int)).map (Int.cast : Int → ℚ) =
        List.replicate n (0 : ℚ) := by
      rw [List.map_replicate]
      norm_num
    rw [hcast]
    rw [resample_poly_zero taps n _ _ hn hup hdown]
    rw [List.map_replicate]
    have hzero : ratTruncToInt (clipPCM16 0) = 0 := by decide
    rw [hzero]
    congr 1
    rw [← ceilDivNat_eq _ _ hdown]
    have hsrcg : Nat.gcd src dst * (src / Nat.gcd src dst) = src :=
      Nat.mul_div_cancel' (Nat.gcd_dvd_left _ _)
    have hdstg : Nat.gcd src dst * (dst / Nat.gcd src dst) = dst :=
      Nat.mul_div_cancel' (Nat.gcd_dvd_right _ _)
    calc ceilDivNat (n * (dst / Nat.gcd src dst)) (src / Nat.gcd src dst)
        = ceilDivNat (Nat.gcd src dst * (n * (dst / Nat.gcd src dst)))
            (Nat.gcd src dst * (src / Nat.gcd src dst)) :=
          (ceilDivNat_mul_left _ _ _ hg hdown).symm
      _ = ceilDivNat (n * dst) src := by
          rw [hsrcg]
          congr 1
          calc Nat.gcd src dst * (n * (dst / Nat.gcd src dst))
              = n * (Nat.gcd src dst * (dst / Nat.gcd src dst)) := by ring
            _ = n * dst := by rw [hdstg]

/-! ## Concrete fixtures for witnesses -/

/-- A concrete session environment.  The output rate equals the model rate
so that concrete runs do not exercise the (tap-abstracted) filter. -/
def envTest : SessEnv :=
  ⟨16000, 16000, fun _ => 0, fun _ => none, fun _ _ _ => (true, "ok")⟩

def fnmW : String → String → Bool := fun v p => v = p

def statesW : List (List (String × JVal)) :=
  [[("entity_id", JVal.str "light.k")], [("entity_id", JVal.str "switch.s")]]

/-! ## Claims -/

/-- C1: for every execution of one edge connection, the output callback
trace of the session task, restricted to `on_output_start` and
`on_output_stop`, alternates strictly — every start is followed by exactly
one stop (at turn-complete, stop signal, or session error) before any
further start, and a stop never fires while the stream is closed.
`scanOpen false tr = some false` states exactly this discipline, including
that the trace ends with the stream closed. -/
theorem claim_C1_output_start_stop_alternation (env : SessEnv) (turns : List Turn) :
    scanOpen false (runSession env turns).1 = some false := by
  have h : scanOpen false (recvLoop env ⟨false, false⟩ turns).2.1 =
      some (recvLoop env ⟨false, false⟩ turns).1.output_stream_open :=
    recvLoop_scanOpen env turns ⟨false, false⟩
  unfold runSession runSessionFrom runFinalize
  dsimp only
  by_cases ho : (recvLoop env ⟨false, false⟩ turns).1.output_stream_open = true
  · rw [if_pos ho, scanOpen_append, h, ho]
    simp [scanOpen]
  · rw [if_neg ho, h]
    have ho' : (recvLoop env ⟨false, false⟩ turns).1.output_stream_open = false := by
      revert ho
      cases (recvLoop env ⟨false, false⟩ turns).1.output_stream_open <;> simp
    rw [ho']

/-- C4 (counterexample): with `max_entities = 0` and one admissible state
the filter still returns one `EntityView` — the cap is only checked after
an append — so the result is not bounded by `max_entities`. -/
theorem claim_C4_counterexample :
    (filter_entities (fun _ _ => false) [[("entity_id", JVal.str "light.kitchen")]]
      [] [] [] 0).length = 1 ∧
    ¬ (((filter_entities (fun _ _ => false) [[("entity_id", JVal.str "light.kitchen")]]
      [] [] [] 0).length : Int) ≤ 0) := by
  constructor
  · decide
  · decide

/-- C4 (amended): every `EntityView` produced by the filter has a non-empty
`entity_id` whose domain is allowed when `allowed_domains` is non-empty,
matches some allowlist glob when the allowlist is non-empty, and matches no
blocklist glob; the result has at most `max max_entities 1` elements — at
most `max_entities` whenever `max_entities ≥ 1`, while for
`max_entities ≤ 0` the first admissible entity is still appended before the
cap check, so one element can be returned. -/
theorem claim_C4_filter_invariant (fnm : String → String → Bool)
    (states : List (List (String × JVal)))
    (allowed_domains allowlist blocklist : List String) (max_entities : Int) :
    (∀ e ∈ filter_entities fnm states allowed_domains allowlist blocklist max_entities,
      e.entity_id ≠ "" ∧
      (allowed_domains ≠ [] → allowed_domains.contains e.domain = true) ∧
      (allowlist ≠ [] → matches_any fnm allowlist e.entity_id = true) ∧
      matches_any fnm blocklist e.entity_id = false) ∧
    ((filter_entities fnm states allowed_domains allowlist blocklist
      max_entities).length : Int) ≤ max max_entities 1 := by
  constructor
  · intro e he
    have := filter_entities_go_mem fnm allowed_domains allowlist blocklist max_entities
      states [] (by simp) e he
    simpa [viewAdmissible] using this
  · exact filter_entities_go_length fnm allowed_domains allowlist blocklist max_entities
      states [] (Or.inr rfl)

theorem claim_C4_witness :
    ((⟨"light.k", "light.k", "unknown", "light"⟩ : EntityView).entity_id ≠ "" ∧
      ((["light"] : List String) ≠ [] →
        (["light"] : List String).contains
          (⟨"light.k", "light.k", "unknown", "light"⟩ : EntityView).domain = true) ∧
      ((["light.k"] : List String) ≠ [] →
        matches_any fnmW ["light.k"]
          (⟨"light.k", "light.k", "unknown", "light"⟩ : EntityView).entity_id = true) ∧
      matches_any fnmW ["light.x"]
        (⟨"light.k", "light.k", "unknown", "light"⟩ : EntityView).entity_id = false) ∧
    ((filter_entities fnmW statesW ["light"] ["light.k"] ["light.x"] 5).length : Int) ≤
      max 5 1 :=
  ⟨(claim_C4_filter_invariant fnmW statesW ["light"] ["light.k"] ["light.x"] 5).1
      ⟨"light.k", "light.k", "unknown", "light"⟩ (by decide),
    (claim_C4_filter_invariant fnmW statesW ["light"] ["light.k"] ["light.x"] 5).2⟩

/-- C5: (a) whenever `barge_in` is set and a message is processed, its
audio is discarded — no output callback fires and the state (in particular
the closed output stream) is unchanged; (b) a turn in which `barge_in` is
set before the first truthy audio byte and never cleared again (no
concurrent `enqueue_audio`) invokes neither `on_output_start` nor
`on_output_chunk` nor `on_output_stop`. -/
theorem claim_C5_barge_in_discard :
    (∀ (env : SessEnv) (st : RecvState) (m : LiveMsg), st.barge_in = true →
      (processMsg env st m).1 = st ∧ (processMsg env st m).2.1 = []) ∧
    (∀ (env : SessEnv) (st : RecvState) (pre post : List TurnItem) (term : TurnEnd),
      st.output_stream_open = false →
      (∀ it ∈ pre, itemNoAudio it = true) →
      (∀ it ∈ post, itemIsUserAudio it = false) →
      (processTurn env st ⟨pre ++ TurnItem.bargeIn :: post, term⟩).2.1 = []) :=
  ⟨fun env st m hb => processMsg_bargeIn env st m hb,
    fun env st pre post term h1 h2 h3 => processTurn_bargedTurn env st pre post term h1 h2 h3⟩

def preW : List TurnItem := [TurnItem.message ⟨none, [none], some "thinking", []⟩]

def postW : List TurnItem :=
  [TurnItem.message ⟨some [1, 2], [], none, []⟩, TurnItem.bargeIn,
    TurnItem.message ⟨some [3], [], none, []⟩]

theorem claim_C5_witness :
    ((processMsg envTest ⟨false, true⟩ ⟨some [7, 8], [], none, []⟩).1 = ⟨false, true⟩ ∧
      (processMsg envTest ⟨false, true⟩ ⟨some [7, 8], [], none, []⟩).2.1 = []) ∧
    (processTurn envTest ⟨false, false⟩
      ⟨preW ++ TurnItem.bargeIn :: postW, TurnEnd.completed⟩).2.1 = [] :=
  ⟨claim_C5_barge_in_discard.1 envTest ⟨false, true⟩ ⟨some [7, 8], [], none, []⟩ rfl,
    claim_C5_barge_in_discard.2 envTest ⟨false, false⟩ preW postW TurnEnd.completed rfl
      (by decide) (by decide)⟩

/-- C8 (counterexample): resampling one zero sample from 16 kHz to 24 kHz
yields 2 samples, not `⌊1·24000/16000⌋ = 1` — scipy's `resample_poly`
produces `⌈n·r'/r⌉` samples, the ceiling, not the floor. -/
theorem claim_C8_counterexample :
    (resample_pcm16 (fun _ => 0) (List.replicate 1 0) 16000 24000).length = 2 ∧
    1 * 24000 / 16000 = 1 := by
  constructor
  · rw [resample_pcm16_zero (fun _ => 0) 1 16000 24000 (by decide) (by decide) (by decide)]
    rw [List.length_replicate]
    decide
  · decide

/-- C8 (amended): for distinct positive rates, resampling the zero-valued
PCM16 signal of `n` samples yields the zero-valued signal of exactly
`⌈n·r'/r⌉` samples (ceiling, not floor), for every choice of FIR taps. -/
theorem claim_C8_zero_resample (taps : Nat → ℚ) (n src dst : Nat)
    (hne : src ≠ dst) (hsrc : 0 < src) (hdst : 0 < dst) :
    resample_pcm16 taps (List.replicate n 0) src dst =
      List.replicate (ceilDivNat (n * dst) src) 0 :=
  resample_pcm16_zero taps n src dst hne hsrc hdst

theorem claim_C8_witness :
    (3 : Nat) ≠ 2 ∧ 0 < 3 ∧ 0 < 2 ∧
    resample_pcm16 (fun _ => 0) (List.replicate 2 0) 3 2 =
      List.replicate (ceilDivNat (2 * 2) 3) 0 :=
  ⟨by decide, by decide, by decide,
    claim_C8_zero_resample (fun _ => 0) 2 3 2 (by decide) (by decide) (by decide)⟩

/-- C9: each `on_output_chunk(pcm, rate)` callback makes the adapter emit
exactly one audio-chunk event carrying that rate and payload (the source's
`_send_audio_chunk` body; the shipped file duplicates its `def` header,
which is a Python `IndentationError` at import time — see
`send_audio_chunk`). -/
theorem claim_C9_chunk_emission (pcm16 : List Int) (rate_hz : Nat) :
    adapterEmit (OutEvent.chunk pcm16 rate_hz) = [WyomingEvent.audioChunk rate_hz pcm16 0] ∧
    (adapterEmit (OutEvent.chunk pcm16 rate_hz)).length = 1 :=
  ⟨rfl, rfl⟩

/-- C10: a 200 response whose JSON body is not an array makes `get_states`
raise (`HA /api/states returned non-list JSON`) rather than return. -/
theorem claim_C10_get_states_nonlist (resp : HttpResp) (v : JVal)
    (h200 : resp.status = 200) (hjson : resp.json = some v)
    (hnotarr : ∀ xs : List JVal, v ≠ JVal.arr xs) :
    get_states resp = Except.error "HA /api/states returned non-list JSON" := by
  unfold get_states
  rw [hjson]
  have harr : (match v with
      | JVal.arr xs => xs.mapM dictOf
      | JVal.str s => Except.error "HA /api/states returned non-list JSON"
      | JVal.num n => Except.error "HA /api/states returned non-list JSON"
      | JVal.bool b => Except.error "HA /api/states returned non-list JSON"
      | JVal.null => Except.error "HA /api/states returned non-list JSON"
      | JVal.obj kvs => Except.error "HA /api/states returned non-list JSON") =
      Except.error "HA /api/states returned non-list JSON" := by
    cases v with
    | arr xs => exact absurd rfl (hnotarr xs)
    | str s => rfl
    | num n => rfl
    | bool b => rfl
    | null => rfl
    | obj kvs => rfl
  simp only [h200, ne_eq, not_true_eq_false, ite_false, if_neg]

theorem claim_C10_witness :
    (⟨200, "x", some (JVal.obj [])⟩ : HttpResp).status = 200 ∧
    get_states ⟨200, "x", some (JVal.obj [])⟩ =
      Except.error "HA /api/states returned non-list JSON" :=
  ⟨rfl, claim_C10_get_states_nonlist ⟨200, "x", some (JVal.obj [])⟩ (JVal.obj []) rfl rfl
    (fun _ h => JVal.noConfusion h)⟩

/-- C2: when the turn iterator raises an exception whose type name contains
`ConnectionClosedOK`, the receive loop exits via the graceful break — the
exception does not propagate and the remaining turns are never read — and
if the output stream was open at that moment, the session task's trace ends
with `on_output_stop` (emitted by the `finally` of `_run` when the task is
torn down). -/
theorem claim_C2_graceful_close (env : SessEnv) (st : RecvState) (t : Turn)
    (rest : List Turn) (exnName : String)
    (hterm : t.term = TurnEnd.errored exnName)
    (hname : isGracefulClose exnName = true) :
    (recvLoop env st (t :: rest)).2.2.2 = LoopExit.gracefulClose ∧
    ((processItems env {st with barge_in := false} t.items).1.output_stream_open = true →
      (runSessionFrom env st (t :: rest)).1 =
        (processItems env {st with barge_in := false} t.items).2.1 ++ [OutEvent.stop]) := by
  obtain ⟨items, term⟩ := t
  simp only at hterm
  subst hterm
  have hturn : processTurn env st ⟨items, TurnEnd.errored exnName⟩ =
      ((processItems env {st with barge_in := false} items).1,
        (processItems env {st with barge_in := false} items).2.1,
        (processItems env {st with barge_in := false} items).2.2,
        TurnOutcome.gracefulClose) := by
    unfold processTurn
    simp [hname]
  constructor
  · simp only [recvLoop, hturn]
  · intro hopen
    unfold runSessionFrom runFinalize
    simp only [recvLoop, hturn]
    simp [hopen]

def turnW : Turn :=
  ⟨[TurnItem.message ⟨some [1], [], none, []⟩], TurnEnd.errored "ConnectionClosedOK"⟩

theorem claim_C2_witness :
    (recvLoop envTest ⟨false, false⟩ (turnW :: [])).2.2.2 = LoopExit.gracefulClose ∧
    (runSessionFrom envTest ⟨false, false⟩ (turnW :: [])).1 =
      (processItems envTest ⟨false, false⟩ turnW.items).2.1 ++ [OutEvent.stop] :=
  ⟨(claim_C2_graceful_close envTest ⟨false, false⟩ turnW [] "ConnectionClosedOK" rfl
      (by decide)).1,
    (claim_C2_graceful_close envTest ⟨false, false⟩ turnW [] "ConnectionClosedOK" rfl
      (by decide)).2 (by decide)⟩

/-- The id carried by a tool response is the id of its originating call. -/
theorem toolResponse_id (env : SessEnv) (fc : FunctionCall) :
    (toolResponse env fc).id = fc.id := by
  unfold toolResponse
  by_cases h : fc.name ≠ some "control_home_assistant" <;> simp [h]

/-- C3: for a batch of `k` function calls, `_handle_tool_calls` builds
exactly `k` responses, pointwise carrying the originating call's id (hence
preserving the model's request order); any call whose name is not
`control_home_assistant` gets `{ok: false, error: "Unknown tool"}` with its
id; and a non-empty batch is submitted as one reply containing all `k`. -/
theorem claim_C3_tool_batch (env : SessEnv) (fcs : List FunctionCall) :
    (toolResponses env fcs).length = fcs.length ∧
    (∀ i : Nat, ((toolResponses env fcs)[i]?).map FunctionResponse.id =
      (fcs[i]?).map FunctionCall.id) ∧
    (∀ (i : Nat) (fc : FunctionCall), fcs[i]? = some fc →
      fc.name ≠ some "control_home_assistant" →
      (toolResponses env fcs)[i]? = some ⟨fc.id, nameOrUnknown fc.name,
        JVal.obj [("ok", JVal.bool false), ("error", JVal.str "Unknown tool")]⟩) ∧
    (fcs ≠ [] → handleToolCalls env fcs = some (toolResponses env fcs)) := by
  refine ⟨by simp [toolResponses], ?_, ?_, ?_⟩
  · intro i
    unfold toolResponses
    rw [List.getElem?_map]
    cases h : fcs[i]? with
    | none => rfl
    | some fc => simp [toolResponse_id]
  · intro i fc hi hname
    unfold toolResponses
    rw [List.getElem?_map, hi]
    simp [toolResponse, hname]
  · intro hne
    unfold handleToolCalls
    rw [if_pos (by simp [toolResponses, hne])]

def fcsW : List FunctionCall :=
  [⟨some "t1", some "control_home_assistant",
      JVal.obj [("domain", JVal.str "light"), ("service", JVal.str "turn_on"),
        ("entity_id", JVal.str "light.k")]⟩,
    ⟨some "t2", some "made_up_tool", JVal.null⟩]

theorem claim_C3_witness :
    (toolResponses envTest fcsW).length = fcsW.length ∧
    ((toolResponses envTest fcsW)[1]?).map FunctionResponse.id =
      (fcsW[1]?).map FunctionCall.id ∧
    (toolResponses envTest fcsW)[1]? = some ⟨some "t2", nameOrUnknown (some "made_up_tool"),
      JVal.obj [("ok", JVal.bool false), ("error", JVal.str "Unknown tool")]⟩ ∧
    handleToolCalls envTest fcsW = some (toolResponses envTest fcsW) :=
  ⟨(claim_C3_tool_batch envTest fcsW).1,
    (claim_C3_tool_batch envTest fcsW).2.1 1,
    (claim_C3_tool_batch envTest fcsW).2.2.1 1 ⟨some "t2", some "made_up_tool", JVal.null⟩
      (by decide) (by decide),
    (claim_C3_tool_batch envTest fcsW).2.2.2 (by decide)⟩

/-- C6: `call_service` returns `(true, "ok")` exactly when it issues the
POST and the response is HTTP 200; on any other status it returns
`(false, "HTTP <status>: <first 500 chars of body>")`; when the (stored,
normalized) base URL or token is empty it returns the not-configured
message without issuing any request; and when the whitespace-stripped
domain or service is empty it returns `(false, "domain/service missing")`
without issuing any request. -/
theorem claim_C6_call_service (c : HAClient) (http : PostReq → HttpResp)
    (domain service : String) (data : Option (List (String × JVal))) :
    ((call_service c http domain service data).1 = (true, "ok") ↔
      (c.is_configured = true ∧ pyStrip domain ≠ "" ∧ pyStrip service ≠ "" ∧
        (http ⟨c.base_url ++ "/api/services/" ++ pyStrip domain ++ "/" ++ pyStrip service,
          data.getD []⟩).status = 200)) ∧
    (c.is_configured = false →
      call_service c http domain service data =
        ((false, "Home Assistant token/URL not configured"), [])) ∧
    (c.is_configured = true → (pyStrip domain = "" ∨ pyStrip service = "") →
      call_service c http domain service data = ((false, "domain/service missing"), [])) ∧
    (c.is_configured = true → pyStrip domain ≠ "" → pyStrip service ≠ "" →
      (call_service c http domain service data).2 =
        [⟨c.base_url ++ "/api/services/" ++ pyStrip domain ++ "/" ++ pyStrip service,
          data.getD []⟩] ∧
      ((http ⟨c.base_url ++ "/api/services/" ++ pyStrip domain ++ "/" ++ pyStrip service,
          data.getD []⟩).status ≠ 200 →
        (call_service c http domain service data).1 =
          (false, "HTTP " ++ toString (http ⟨c.base_url ++ "/api/services/" ++ pyStrip domain
            ++ "/" ++ pyStrip service, data.getD []⟩).status ++ ": " ++
            pyTake (http ⟨c.base_url ++ "/api/services/" ++ pyStrip domain ++ "/" ++
              pyStrip service, data.getD []⟩).body 500))) := by
  by_cases hcfg : c.is_configured = true
  · by_cases hd : pyStrip domain = ""
    · have hres : call_service c http domain service data =
          ((false, "domain/service missing"), []) := by
        unfold call_service
        rw [if_neg (by simp [hcfg])]
        rw [if_pos (Or.inl hd)]
      refine ⟨?_, ?_, ?_, ?_⟩
      · rw [hres]; simp [hd]
      · intro h; rw [h] at hcfg; exact absurd hcfg (by simp)
      · intro _ _; exact hres
      · intro _ hd' _; exact absurd hd hd'
    · by_cases hs : pyStrip service = ""
      · have hres : call_service c http domain service data =
            ((false, "domain/service missing"), []) := by
          unfold call_service
          rw [if_neg (by simp [hcfg])]
          rw [if_pos (Or.inr hs)]
        refine ⟨?_, ?_, ?_, ?_⟩
        · rw [hres]; simp [hs]
        · intro h; rw [h] at hcfg; exact absurd hcfg (by simp)
        · intro _ _; exact hres
        · intro _ _ hs'; exact absurd hs hs'
      · by_cases h200 : (http ⟨c.base_url ++ "/api/services/" ++ pyStrip domain ++ "/" ++
            pyStrip service, data.getD []⟩).status = 200
        · have hres : call_service c http domain service data =
              ((true, "ok"),
                [⟨c.base_url ++ "/api/services/" ++ pyStrip domain ++ "/" ++ pyStrip service,
                  data.getD []⟩]) := by
            unfold call_service
            rw [if_neg (by simp [hcfg])]
            rw [if_neg (by simp [hd, hs])]
            simp only [h200, ite_true, if_pos]
          refine ⟨?_, ?_, ?_, ?_⟩
          · rw [hres]; simp [hcfg, hd, hs, h200]
          · intro h; rw [h] at hcfg; exact absurd hcfg (by simp)
          · intro _ h; rcases h with h | h
            · exact absurd h hd
            · exact absurd h hs
          · intro _ _ _
            constructor
            · rw [hres]
            · intro hne; exact absurd h200 hne
        · have hres : call_service c http domain service data =
              ((false, "HTTP " ++ toString (http ⟨c.base_url ++ "/api/services/" ++
                  pyStrip domain ++ "/" ++ pyStrip service, data.getD []⟩).status ++ ": " ++
                  pyTake (http ⟨c.base_url ++ "/api/services/" ++ pyStrip domain ++ "/" ++
                    pyStrip service, data.getD []⟩).body 500),
                [⟨c.base_url ++ "/api/services/" ++ pyStrip domain ++ "/" ++ pyStrip service,
                  data.getD []⟩]) := by
            unfold call_service
            rw [if_neg (by simp [hcfg])]
            rw [if_neg (by simp [hd, hs])]
            rw [if_neg h200]
          refine ⟨?_, ?_, ?_, ?_⟩
          · rw [hres]
            constructor
            · intro h
              exact Bool.noConfusion (congrArg Prod.fst h)
            · intro h
              exact absurd h.2.2.2 h200
          · intro h; rw [h] at hcfg; exact absurd hcfg (by simp)
          · intro _ h; rcases h with h | h
            · exact absurd h hd
            · exact absurd h hs
          · intro _ _ _
            exact ⟨by rw [hres], fun _ => by rw [hres]⟩
  · have hcfg' : c.is_configured = false := by
      revert hcfg; cases c.is_configured <;> simp
    have hres : call_service c http domain service data =
        ((false, "Home Assistant token/URL not configured"), []) := by
      unfold call_service
      rw [if_pos (by simp [hcfg'])]
    refine ⟨?_, ?_, ?_, ?_⟩
    · rw [hres]; simp [hcfg']
    · intro _; exact hres
    · intro h; rw [h] at hcfg'; exact absurd hcfg' (by simp)
    · intro h; rw [h] at hcfg'; exact absurd hcfg' (by simp)

theorem claim_C6_witness :
    (call_service (HAClient.make "http://ha:8123" "tok") (fun _ => ⟨200, "", none⟩)
      "light" "turn_on" (some [("entity_id", JVal.str "light.k")])).1 = (true, "ok") ∧
    (call_service (HAClient.make "http://ha:8123" "tok") (fun _ => ⟨200, "", none⟩)
      "light" "turn_on" (some [("entity_id", JVal.str "light.k")])).2 =
      [⟨(HAClient.make "http://ha:8123" "tok").base_url ++ "/api/services/" ++
        pyStrip "light" ++ "/" ++ pyStrip "turn_on",
        (some [("entity_id", JVal.str "light.k")]).getD []⟩] :=
  ⟨(claim_C6_call_service (HAClient.make "http://ha:8123" "tok") (fun _ => ⟨200, "", none⟩)
      "light" "turn_on" (some [("entity_id", JVal.str "light.k")])).1.mpr
      ⟨by decide, by decide, by decide, rfl⟩,
    ((claim_C6_call_service (HAClient.make "http://ha:8123" "tok") (fun _ => ⟨200, "", none⟩)
      "light" "turn_on" (some [("entity_id", JVal.str "light.k")])).2.2.2
      (by decide) (by decide) (by decide)).1⟩

/-! ## C7: the tool-call data mapping -/

/-- The `data` dict before the `service_data_json` merge. -/
def entityBase (entity_id : String) : List (String × JVal) :=
  if entity_id ≠ "" then [("entity_id", JVal.str entity_id)] else []

/-- A concrete `json.loads` model for the counterexample: on the literal
`{"entity_id": "light.x"}` it returns the corresponding mapping. -/
def parseW : String → Option JVal :=
  fun s => if s = "\x7b\"entity_id\": \"light.x\"\x7d" then
    some (JVal.obj [("entity_id", JVal.str "light.x")]) else none

def envW7 : SessEnv := ⟨16000, 16000, fun _ => 0, parseW, fun _ _ _ => (true, "ok")⟩

def argsW7 : List (String × JVal) :=
  [("domain", JVal.str "light"), ("service", JVal.str "turn_on"),
    ("entity_id", JVal.str ""), ("service_data_json",
      JVal.str "\x7b\"entity_id\": \"light.x\"\x7d")]

/-- C7 (counterexample): with an empty `entity_id` argument and a
`service_data_json` that parses to a mapping containing an `entity_id` key,
the data mapping passed to `call_service` does contain the `entity_id` key
— so "contains the entity_id key exactly when entity_id is non-empty" is
false as stated. -/
theorem claim_C7_counterexample :
    pyStrip (pyStr (dictGetD argsW7 "entity_id" (.str ""))) = "" ∧
    (executeControlHA envW7 (JVal.obj argsW7)).2 =
      [⟨"light", "turn_on", [("entity_id", JVal.str "light.x")]⟩] ∧
    dictHasKey [("entity_id", JVal.str "light.x")] "entity_id" = true := by
  refine ⟨by decide, by decide, by decide⟩

theorem entityBase_hasKey (entity_id : String) :
    dictHasKey (entityBase entity_id) "entity_id" = true ↔ entity_id ≠ "" := by
  unfold entityBase dictHasKey
  by_cases h : entity_id ≠ "" <;> simp [h]

theorem buildServiceData_parse_fail (parse : String → Option JVal) (entity_id s : String)
    (hstrip : pyStrip s ≠ "") (hp : parse s = none) :
    buildServiceData parse entity_id (some (JVal.str s)) = entityBase entity_id := by
  unfold buildServiceData
  dsimp only
  rw [if_pos hstrip, hp]
  rfl

theorem buildServiceData_merge (parse : String → Option JVal) (entity_id s : String)
    (extra : List (String × JVal))
    (hstrip : pyStrip s ≠ "") (hp : parse s = some (JVal.obj extra)) :
    buildServiceData parse entity_id (some (JVal.str s)) =
      dictUpdate (entityBase entity_id) extra := by
  unfold buildServiceData
  dsimp only
  rw [if_pos hstrip, hp]
  rfl

theorem buildServiceData_key (parse : String → Option JVal) (entity_id : String) :
    ∀ sdj : Option JVal,
      (dictHasKey (buildServiceData parse entity_id sdj) "entity_id" = true ↔
        (entity_id ≠ "" ∨ ∃ s extra, sdj = some (JVal.str s) ∧ pyStrip s ≠ "" ∧
          parse s = some (JVal.obj extra) ∧ dictHasKey extra "entity_id" = true)) := by
  intro sdj
  have hbase := entityBase_hasKey entity_id
  cases sdj with
  | none =>
    have hb : buildServiceData parse entity_id none = entityBase entity_id := rfl
    rw [hb, hbase]
    constructor
    · exact Or.inl
    · rintro (h | ⟨s, extra, hs, _⟩)
      · exact h
      · exact Option.noConfusion hs
  | some v =>
    cases v with
    | str s =>
      by_cases hstrip : pyStrip s ≠ ""
      · cases hp : parse s with
        | none =>
          rw [buildServiceData_parse_fail parse entity_id s hstrip hp, hbase]
          constructor
          · exact Or.inl
          · rintro (h | ⟨s', extra', hs', hstrip', hp', hk⟩)
            · exact h
            · have hss : s = s' := by
                injection hs' with h1
                injection h1
              rw [← hss, hp] at hp'
              exact Option.noConfusion hp'
        | some w =>
          cases w with
          | obj extra =>
            rw [buildServiceData_merge parse entity_id s extra hstrip hp,
              dictHasKey_update extra (entityBase entity_id) "entity_id", hbase]
            constructor
            · rintro (h | h)
              · exact Or.inl h
              · exact Or.inr ⟨s, extra, rfl, hstrip, hp, h⟩
            · rintro (h | ⟨s', extra', hs', hstrip', hp', hk⟩)
              · exact Or.inl h
              · have hss : s = s' := by
                  injection hs' with h1
                  injection h1
                rw [← hss, hp] at hp'
                have hw := Option.some.inj hp'
                have hex : extra = extra' := by injection hw
                rw [hex]
                exact Or.inr hk
          | str s2 =>
            have hb : buildServiceData parse entity_id (some (JVal.str s)) =
                entityBase entity_id := by
              unfold buildServiceData
              dsimp only
              rw [if_pos hstrip, hp]
              rfl
            rw [hb, hbase]
            constructor
            · exact Or.inl
            · rintro (h | ⟨s', extra', hs', hstrip', hp', hk⟩)
              · exact h
              · have hss : s = s' := by
                  injection hs' with h1
                  injection h1
                rw [← hss, hp] at hp'
                exact JVal.noConfusion (Option.some.inj hp')
          | num n2 =>
            have hb : buildServiceData parse entity_id (some (JVal.str s)) =
                entityBase entity_id := by
              unfold buildServiceData
              dsimp only
              rw [if_pos hstrip, hp]
              rfl
            rw [hb, hbase]
            constructor
            · exact Or.inl
            · rintro (h | ⟨s', extra', hs', hstrip', hp', hk⟩)
              · exact h
              · have hss : s = s' := by
                  injection hs' with h1
                  injection h1
                rw [← hss, hp] at hp'
                exact JVal.noConfusion (Option.some.inj hp')
          | bool b2 =>
            have hb : buildServiceData parse entity_id (some (JVal.str s)) =
                entityBase entity_id := by
              unfold buildServiceData
              dsimp only
              rw [if_pos hstrip, hp]
              rfl
            rw [hb, hbase]
            constructor
            · exact Or.inl
            · rintro (h | ⟨s', extra', hs', hstrip', hp', hk⟩)
              · exact h
              · have hss : s = s' := by
                  injection hs' with h1
                  injection h1
                rw [← hss, hp] at hp'
                exact JVal.noConfusion (Option.some.inj hp')
          | null =>
            have hb : buildServiceData parse entity_id (some (JVal.str s)) =
                entityBase entity_id := by
              unfold buildServiceData
              dsimp only
              rw [if_pos hstrip, hp]
              rfl
            rw [hb, hbase]
            constructor
            · exact Or.inl
            · rintro (h | ⟨s', extra', hs', hstrip', hp', hk⟩)
              · exact h
              · have hss : s = s' := by
                  injection hs' with h1
                  injection h1
                rw [← hss, hp] at hp'
                exact JVal.noConfusion (Option.some.inj hp')
          | arr xs2 =>
            have hb : buildServiceData parse entity_id (some (JVal.str s)) =
                entityBase entity_id := by
              unfold buildServiceData
              dsimp only
              rw [if_pos hstrip, hp]
              rfl
            rw [hb, hbase]
            constructor
            · exact Or.inl
            · rintro (h | ⟨s', extra', hs', hstrip', hp', hk⟩)
              · exact h
              · have hss : s = s' := by
                  injection hs' with h1
                  injection h1
                rw [← hss, hp] at hp'
                exact JVal.noConfusion (Option.some.inj hp')
      · have hb : buildServiceData parse entity_id (some (JVal.str s)) =
            entityBase entity_id := by
          unfold buildServiceData
          dsimp only
          rw [if_neg hstrip]
          rfl
        rw [hb, hbase]
        constructor
        · exact Or.inl
        · rintro (h | ⟨s', extra', hs', hstrip', hp', hk⟩)
          · exact h
          · have hss : s = s' := by
              injection hs' with h1
              injection h1
            rw [← hss] at hstrip'
            exact absurd hstrip' hstrip
    | num n =>
      have hb : buildServiceData parse entity_id (some (JVal.num n)) =
          entityBase entity_id := rfl
      rw [hb, hbase]
      constructor
      · exact Or.inl
      · rintro (h | ⟨s', extra', hs', _⟩)
        · exact h
        · exact JVal.noConfusion (Option.some.inj hs')
    | bool b =>
      have hb : buildServiceData parse entity_id (some (JVal.bool b)) =
          entityBase entity_id := rfl
      rw [hb, hbase]
      constructor
      · exact Or.inl
      · rintro (h | ⟨s', extra', hs', _⟩)
        · exact h
        · exact JVal.noConfusion (Option.some.inj hs')
    | null =>
      have hb : buildServiceData parse entity_id (some JVal.null) =
          entityBase entity_id := rfl
      rw [hb, hbase]
      constructor
      · exact Or.inl
      · rintro (h | ⟨s', extra', hs', _⟩)
        · exact h
        · exact JVal.noConfusion (Option.some.inj hs')
    | arr xs =>
      have hb : buildServiceData parse entity_id (some (JVal.arr xs)) =
          entityBase entity_id := rfl
      rw [hb, hbase]
      constructor
      · exact Or.inl
      · rintro (h | ⟨s', extra', hs', _⟩)
        · exact h
        · exact JVal.noConfusion (Option.some.inj hs')
    | obj kvs =>
      have hb : buildServiceData parse entity_id (some (JVal.obj kvs)) =
          entityBase entity_id := rfl
      rw [hb, hbase]
      constructor
      · exact Or.inl
      · rintro (h | ⟨s', extra', hs', _⟩)
        · exact h
        · exact JVal.noConfusion (Option.some.inj hs')

/-- C7 (amended): the data mapping handed to `call_service` is built from
the trimmed `entity_id` and the parsed `service_data_json`; it contains the
`entity_id` key exactly when the trimmed `entity_id` argument is non-empty
**or** the parsed `service_data_json` mapping itself supplies an
`entity_id` key; a `service_data_json` string that fails to parse is
silently ignored (the call proceeds with the remaining fields); one that
parses to a mapping has its key-value pairs merged (`dict.update`
semantics) into the data. -/
theorem claim_C7_service_data (env : SessEnv) (kvs : List (String × JVal)) :
    (executeControlHA env (JVal.obj kvs)).2 =
      [⟨pyStrip (pyStr (dictGetD kvs "domain" (.str ""))),
        pyStrip (pyStr (dictGetD kvs "service" (.str ""))),
        buildServiceData env.parseJson (pyStrip (pyStr (dictGetD kvs "entity_id" (.str ""))))
          (dictGet kvs "service_data_json")⟩] ∧
    (dictHasKey (buildServiceData env.parseJson
        (pyStrip (pyStr (dictGetD kvs "entity_id" (.str ""))))
        (dictGet kvs "service_data_json")) "entity_id" = true ↔
      (pyStrip (pyStr (dictGetD kvs "entity_id" (.str ""))) ≠ "" ∨
        ∃ s extra, dictGet kvs "service_data_json" = some (JVal.str s) ∧ pyStrip s ≠ "" ∧
          env.parseJson s = some (JVal.obj extra) ∧ dictHasKey extra "entity_id" = true)) ∧
    (∀ s : String, dictGet kvs "service_data_json" = some (JVal.str s) → pyStrip s ≠ "" →
      env.parseJson s = none →
      buildServiceData env.parseJson (pyStrip (pyStr (dictGetD kvs "entity_id" (.str ""))))
        (dictGet kvs "service_data_json") =
        entityBase (pyStrip (pyStr (dictGetD kvs "entity_id" (.str ""))))) ∧
    (∀ (s : String) (extra : List (String × JVal)),
      dictGet kvs "service_data_json" = some (JVal.str s) → pyStrip s ≠ "" →
      env.parseJson s = some (JVal.obj extra) →
      buildServiceData env.parseJson (pyStrip (pyStr (dictGetD kvs "entity_id" (.str ""))))
        (dictGet kvs "service_data_json") =
        dictUpdate (entityBase (pyStrip (pyStr (dictGetD kvs "entity_id" (.str ""))))) extra) := by
  refine ⟨rfl, buildServiceData_key env.parseJson _ _, ?_, ?_⟩
  · intro s hs hstrip hp
    rw [hs]
    exact buildServiceData_parse_fail env.parseJson _ s hstrip hp
  · intro s extra hs hstrip hp
    rw [hs]
    exact buildServiceData_merge env.parseJson _ s extra hstrip hp

def argsW7b : List (String × JVal) :=
  [("domain", JVal.str "light"), ("service", JVal.str "turn_on"),
    ("entity_id", JVal.str " light.k "), ("service_data_json", JVal.str "not json")]

theorem claim_C7_witness :
    (executeControlHA envTest (JVal.obj argsW7b)).2 =
      [⟨pyStrip (pyStr (dictGetD argsW7b "domain" (.str ""))),
        pyStrip (pyStr (dictGetD argsW7b "service" (.str ""))),
        buildServiceData envTest.parseJson
          (pyStrip (pyStr (dictGetD argsW7b "entity_id" (.str ""))))
          (dictGet argsW7b "service_data_json")⟩] ∧
    buildServiceData envTest.parseJson
      (pyStrip (pyStr (dictGetD argsW7b "entity_id" (.str ""))))
      (dictGet argsW7b "service_data_json") =
      entityBase (pyStrip (pyStr (dictGetD argsW7b "entity_id" (.str "")))) :=
  ⟨(claim_C7_service_data envTest argsW7b).1,
    (claim_C7_service_data envTest argsW7b).2.2.1 "not json" (by decide) (by decide) rfl⟩
